import Mathlib

/-!
Verification of the pyMor grid core (src/pymor/grids/rect.py and
src/pymor/grid/referenceelements.py) against its natural-language
specification.  The Python code is shallowly embedded: numpy integer
arrays become functions into `ℕ`, float arrays become `ℚ`-valued (or
`ℝ`-valued where suprema over a continuum are stated), `assert cond, msg`
becomes an `Except` computation that evaluates the message expression
only on failure (as Python does), and numpy calls that can fail return
`Except PyErr`.
-/

namespace PyMor

/-- Errors a call into the embedded code can raise.  `assertionError`
wraps the message object that Python attaches to a failing `assert`
(the code passes a `CodimError` instance there, modelled by
`codimError`); `nameError` is raised when an expression references an
unbound name; `typeError` models numpy rejecting an argument of the
wrong kind. -/
inductive PyErr where
  | codimError (msg : String)
  | nameError (name : String)
  | typeError (msg : String)
  | assertionError (arg : PyErr)
deriving DecidableEq, Repr

/-- Embedding of `assert cond, msgExpr`: the message expression is
evaluated only when the condition fails; if evaluating it raises, that
error propagates, otherwise an `AssertionError` wrapping the message
object is raised. -/
def pyAssert (cond : Bool) (msg : Except PyErr PyErr) : Except PyErr Unit :=
  if cond then .ok ()
  else match msg with
    | .ok m => .error (.assertionError m)
    | .error e => .error e

/-- Embedding of Python name lookup inside an expression: the names in
`scope` are bound; referencing any other name raises `NameError`. -/
def resolveName (scope : List String) (n : String) : Except PyErr String :=
  if scope.contains n then .ok n else .error (.nameError n)

/-! ## Exact 2-vector and 2x2-matrix arithmetic over `ℚ` -/

/-- Componentwise sum of two 2-vectors. -/
def vadd2 (u v : ℚ × ℚ) : ℚ × ℚ := (u.1 + v.1, u.2 + v.2)

/-- Componentwise difference of two 2-vectors. -/
def vsub2 (u v : ℚ × ℚ) : ℚ × ℚ := (u.1 - v.1, u.2 - v.2)

/-- Scalar multiple of a 2-vector. -/
def vsmul2 (c : ℚ) (v : ℚ × ℚ) : ℚ × ℚ := (c * v.1, c * v.2)

/-- Euclidean inner product of two 2-vectors. -/
def dot2 (u v : ℚ × ℚ) : ℚ := u.1 * v.1 + u.2 * v.2

/-- A 2x2 matrix with rational entries; `a b / c d` are the entries
`(0,0) (0,1) / (1,0) (1,1)`. -/
structure Mat2 where
  a : ℚ
  b : ℚ
  c : ℚ
  d : ℚ
deriving DecidableEq, Repr

/-- Matrix-vector product. -/
def Mat2.mulVec (M : Mat2) (v : ℚ × ℚ) : ℚ × ℚ :=
  (M.a * v.1 + M.b * v.2, M.c * v.1 + M.d * v.2)

/-- Matrix-matrix product. -/
def Mat2.mul (M N : Mat2) : Mat2 :=
  ⟨M.a * N.a + M.b * N.c, M.a * N.b + M.b * N.d,
   M.c * N.a + M.d * N.c, M.c * N.b + M.d * N.d⟩

/-- Transpose. -/
def Mat2.transpose (M : Mat2) : Mat2 := ⟨M.a, M.c, M.b, M.d⟩

/-- Determinant. -/
def Mat2.det (M : Mat2) : ℚ := M.a * M.d - M.b * M.c

/-- Diagonal matrix, as produced by `np.diag([x, y])`. -/
def Mat2.diag (x y : ℚ) : Mat2 := ⟨x, 0, 0, y⟩

/-- The identity matrix `np.eye(2)`. -/
def Mat2.one : Mat2 := ⟨1, 0, 0, 1⟩

/-- Inverse of a 2x2 matrix by the adjugate formula (exact arithmetic;
meaningful when the determinant is nonzero, see `Mat2.mul_inv2`). -/
def Mat2.inv2 (M : Mat2) : Mat2 :=
  ⟨M.d / M.det, -M.b / M.det, -M.c / M.det, M.a / M.det⟩

/-! ## Reference elements (src/pymor/grid/referenceelements.py)

`Point`, `Line` and `Square` are stateless; their methods become plain
definitions.  Integer tables become functions out of `Fin`-types, float
arrays become `ℚ × ℚ` pairs. -/

/-- `Point.size` (referenceelements.py lines 13-15): asserts
`codim == 0` and returns 1. -/
def pointSize (codim : ℕ) : Except PyErr ℕ := do
  pyAssert (decide (codim = 0))
    (.ok (.codimError ("Invalid codimension (must be 0 but was " ++ toString codim ++ ")")))
  pure 1

/-- `Point.subentities` (lines 17-20): asserts both codimensions are 0
and returns `np.array([0])`. -/
def pointSubentities (codim subentity_codim : ℕ) : Except PyErr (List ℕ) := do
  pyAssert (decide (codim = 0))
    (.ok (.codimError ("Invalid codimension (must be 0 but was " ++ toString codim ++ ")")))
  pyAssert (decide (subentity_codim = 0))
    (.ok (.codimError ("Invalid subentity codimension (must be 0 but was " ++
      toString subentity_codim ++ ")")))
  pure [0]

/-- `Point.subentity_embedding` (lines 22-24): asserts
`subentity_codim == 0` and returns `(np.zeros((0,0)), np.zeros((0)))`.
The assert message formats the name `codim`, which is not bound in this
method (its parameter is `subentity_codim`); Python only evaluates the
message when the assert fails, so a failing call raises `NameError`
instead of the intended `CodimError`. -/
def pointSubentityEmbedding (subentity_codim : ℕ) :
    Except PyErr (List (List ℚ) × List ℚ) := do
  pyAssert (decide (subentity_codim = 0))
    (do let c ← resolveName ["self", "subentity_codim"] "codim"
        Except.ok (PyErr.codimError ("Invalid codimension (must be 0 but was " ++ c ++ ")")))
  pure ([], [])

/-- `Point.sub_reference_element` (lines 26-28): asserts `codim == 0`
and returns the point element itself (modelled by `Unit`). -/
def pointSubReferenceElement (codim : ℕ) : Except PyErr Unit := do
  pyAssert (decide (codim = 0))
    (.ok (.codimError ("Invalid codimension (must be 0 but was " ++ toString codim ++ ")")))
  pure ()

/-- `Line.size` (lines 47-52). -/
def lineSize (codim : ℕ) : Except PyErr ℕ := do
  pyAssert (decide (codim ≤ 1))
    (.ok (.codimError ("Invalid codimension (must be 0 or 1 but was " ++ toString codim ++ ")")))
  pure (if codim = 0 then 1 else 2)

/-- `Line.subentities` (lines 54-61): the codim-1 table is
`np.array(([0], [1]))`. -/
def lineSubentities (codim subentity_codim : ℕ) : Except PyErr (List (List ℕ)) := do
  pyAssert (decide (codim ≤ 1))
    (.ok (.codimError ("Invalid codimension (must be 0 or 1 but was " ++ toString codim ++ ")")))
  pyAssert (decide (codim ≤ subentity_codim) && decide (subentity_codim ≤ 1))
    (.ok (.codimError ("Invalid codimension (must be between " ++ toString codim ++
      " and 1 but was " ++ toString subentity_codim ++ ")")))
  if codim = 0 then
    pure [(List.range (if subentity_codim = 0 then 1 else 2))]
  else
    pure [[0], [1]]

/-- Translation parts of `Line.subentity_embedding(1)` (line 69):
`B = np.array(([0.], [1.]))`, i.e. local vertex 0 sits at coordinate 0
and local vertex 1 at coordinate 1. -/
def lineSubentityEmbedding1B : Fin 2 → ℚ := ![0, 1]

/-- `Line.subentity_embedding` guard (lines 63-65); the returned arrays
are summarized by the codim-1 translation table
`lineSubentityEmbedding1B`. -/
def lineSubentityEmbedding (subentity_codim : ℕ) : Except PyErr Unit := do
  pyAssert (decide (subentity_codim ≤ 1))
    (.ok (.codimError ("Invalid codimension (must be 0 or 1 but was " ++
      toString subentity_codim ++ ")")))
  pure ()

/-- `Square.size` (lines 95-102). -/
def squareSize (codim : ℕ) : Except PyErr ℕ := do
  pyAssert (decide (codim ≤ 2))
    (.ok (.codimError ("Invalid codimension (must be between 0 and 2 but was " ++
      toString codim ++ ")")))
  pure (if codim = 0 then 1 else 4)

/-- `Square.subentities(1, 2)` (line 114): the local vertices of each
local edge, `np.array(([0, 1], [1, 2], [2, 3], [3, 0]))`. -/
def squareSub12 : Fin 4 → Fin 2 → Fin 4 :=
  ![![0, 1], ![1, 2], ![2, 3], ![3, 0]]

/-- Linear parts of `Square.subentity_embedding(1)` (lines 124-125):
each local edge embeds by a 2x1 matrix, recorded here as its single
column vector. -/
def squareSubentityEmbedding1A : Fin 4 → ℚ × ℚ :=
  ![(1, 0), (0, 1), (-1, 0), (0, -1)]

/-- Translation parts of `Square.subentity_embedding(1)` (lines
126-127). -/
def squareSubentityEmbedding1B : Fin 4 → ℚ × ℚ :=
  ![(0, 0), (1, 0), (1, 1), (0, 1)]

/-- `Square.unit_outer_normals` (lines 141-142):
`np.array(([0., -1.], [1., 0.], [0., 1], [-1., 0.]))`. -/
def squareUnitOuterNormals : Fin 4 → ℚ × ℚ :=
  ![(0, -1), (1, 0), (0, 1), (-1, 0)]

/-- `Square.center` (lines 144-145). -/
def squareCenter : ℚ × ℚ := (1/2, 1/2)

/-- `Square.volume` (line 93). -/
def squareVolume : ℚ := 1

/-! ### Python objects passed to `np.array`

`Line.unit_outer_normals` (line 79) is `np.array([-1.], [1.])`: the
second list is passed positionally into `np.array`'s `dtype` parameter.
We model just enough of `np.array` to capture this: the object argument
is returned unchanged, and a `dtype` argument that is not interpretable
as a numpy dtype raises `TypeError`. -/

/-- A Python object as handed to `np.array`: a float scalar, a list, or
an object that numpy can interpret as a dtype. -/
inductive PyObj where
  | float (q : ℚ)
  | list (xs : List PyObj)
  | dtypeSpec (name : String)

/-- Whether numpy can interpret the object as a data type: dtype
specifications qualify, float scalars and plain float lists do not. -/
def isDtypeLike : PyObj → Bool
  | .dtypeSpec _ => true
  | _ => false

/-- Model of `np.array(obj, dtype)`: with no `dtype` the object is
converted as-is; a `dtype` argument that numpy cannot interpret as a
data type raises `TypeError`. -/
def npArray (obj : PyObj) (dtype : Option PyObj) : Except PyErr PyObj :=
  match dtype with
  | none => .ok obj
  | some d => if isDtypeLike d then .ok obj else .error (.typeError "data type not understood")

/-- `Line.unit_outer_normals` (lines 78-79): `np.array([-1.], [1.])`
passes `[1.]` positionally as `dtype`. -/
def lineUnitOuterNormals : Except PyErr PyObj :=
  npArray (.list [.float (-1)]) (some (.list [.float 1]))

/-! ## RectGrid (src/pymor/grids/rect.py)

`RectGrid(num_intervals=(n0, n1), domain=[[a0, a1], [b0, b1]])`. -/

/-- The constructor arguments of `RectGrid`: interval counts per axis
and the lower-left / upper-right corners of the domain. -/
structure RectGrid where
  n0 : ℕ
  n1 : ℕ
  a0 : ℚ
  a1 : ℚ
  b0 : ℚ
  b1 : ℚ
deriving DecidableEq, Repr

namespace RectGrid

/-- `self.x0_width = self.x0_range[1] - self.x0_range[0]` (line 51). -/
def x0_width (g : RectGrid) : ℚ := g.b0 - g.a0

/-- `self.x1_width` (line 52). -/
def x1_width (g : RectGrid) : ℚ := g.b1 - g.a1

/-- `self.x0_diameter = self.x0_width / self.x0_num_intervals` (line 53). -/
def x0_diameter (g : RectGrid) : ℚ := g.x0_width / g.n0

/-- `self.x1_diameter` (line 54). -/
def x1_diameter (g : RectGrid) : ℚ := g.x1_width / g.n1

/-- `n_elements = self.x0_num_intervals * self.x1_num_intervals` (line 57). -/
def n_elements (g : RectGrid) : ℕ := g.n0 * g.n1

/-- `self.__sizes` (lines 60-63): entity counts for codimensions 0, 1, 2. -/
def sizes (g : RectGrid) : ℕ × ℕ × ℕ :=
  (g.n_elements,
   (g.n0 + 1) * g.n1 + (g.n1 + 1) * g.n0,
   (g.n0 + 1) * (g.n1 + 1))

/-- `RectGrid.size` (lines 97-99): asserts `0 <= codim <= 2` and indexes
the sizes tuple. -/
def size (g : RectGrid) (codim : ℕ) : Except PyErr ℕ := do
  pyAssert (decide (codim ≤ 2)) (.ok (.codimError "Invalid codimension"))
  pure (if codim = 0 then g.sizes.1 else if codim = 1 then g.sizes.2.1 else g.sizes.2.2)

/-- `EVL` (lines 66-67): the left-edge / lower-left-vertex index of cell
`e`.  The source builds it as
`((arange(n1) * (n0+1))[:, newaxis] + arange(n0)).ravel()`; the C-order
ravel places cell `(i, j)` at flat index `e = j*n0 + i`, so the entry is
`(e / n0) * (n0 + 1) + e % n0`. -/
def EVL (g : RectGrid) (e : ℕ) : ℕ := (e / g.n0) * (g.n0 + 1) + e % g.n0

/-- `codim0_subentities = np.array((EHB, EVR, EHT, EVL)).T` (lines
66-71) with `EVR = EVL + 1`, `EHB = arange(n_elements) + (n0+1)*n1`,
`EHT = EHB + n0`: the four codim-1 edges of cell `e`, in local slot
order bottom, right, top, left. -/
def codim0Subentities (g : RectGrid) (e : ℕ) : Fin 4 → ℕ :=
  ![e + (g.n0 + 1) * g.n1,
    g.EVL e + 1,
    e + (g.n0 + 1) * g.n1 + g.n0,
    g.EVL e]

/-- `codim1_subentities = np.tile(EVL[:, np.newaxis], 4) + np.array([0,
1, n0 + 2, n0 + 1])` (lines 74-75): the four codim-2 vertices of cell
`e`. -/
def codim1Subentities (g : RectGrid) (e : ℕ) : Fin 4 → ℕ :=
  fun s => g.EVL e + ![0, 1, g.n0 + 2, g.n0 + 1] s

/-- Result of `RectGrid.subentities`: the identity column
`np.arange(size(0))[:, np.newaxis]`, a four-column table, or the
delegation to the generic superclass implementation (whose code is not
part of this source set). -/
inductive SubResult where
  | identity (n : ℕ)
  | table (rows : ℕ) (row : ℕ → Fin 4 → ℕ)
  | delegated (codim sc : ℕ)

/-- `RectGrid.subentities` (lines 101-112): validates the
codimensions, defaults `subentity_codim` to `codim + 1`, and for
`codim == 0` returns the identity column or one of the two stored
tables; for `codim > 0` it defers to the superclass. -/
def subentities (g : RectGrid) (codim : ℕ) (subentity_codim : Option ℕ) :
    Except PyErr SubResult := do
  pyAssert (decide (codim ≤ 2)) (.ok (.codimError "Invalid codimension"))
  let sc := subentity_codim.getD (codim + 1)
  pyAssert (decide (codim ≤ sc) && decide (sc ≤ 2))
    (.ok (.codimError "Invalid subentity codimensoin"))
  if codim = 0 then
    if sc = 0 then
      pure (.identity (g.n_elements))
    else if sc = 1 then
      pure (.table g.n_elements g.codim0Subentities)
    else
      pure (.table g.n_elements g.codim1Subentities)
  else
    pure (.delegated codim sc)

/-- `x0_shifts = np.arange(n0) * x0_diameter + x0_range[0]` (line 81). -/
def x0_shifts (g : RectGrid) (i : ℕ) : ℚ := i * g.x0_diameter + g.a0

/-- `x1_shifts` (line 82). -/
def x1_shifts (g : RectGrid) (j : ℕ) : ℚ := j * g.x1_diameter + g.a1

/-- The linear part of the codim-0 embeddings (line 84):
`A = np.tile(np.diag([x0_diameter, x1_diameter]), (n_elements, 1, 1))`
— the same diagonal matrix for every cell. -/
def embA (g : RectGrid) (_e : ℕ) : Mat2 := Mat2.diag g.x0_diameter g.x1_diameter

/-- The translation part of the codim-0 embeddings (lines 83, 85):
`shifts = np.array(np.meshgrid(x0_shifts, x1_shifts)).reshape((2, -1));
B = shifts.T`.  `meshgrid` followed by the C-order reshape places cell
`(i, j)` at flat index `e = j*n0 + i` with first coordinate
`x0_shifts[i] = x0_shifts[e % n0]` and second `x1_shifts[e / n0]`. -/
def embB (g : RectGrid) (e : ℕ) : ℚ × ℚ :=
  (g.x0_shifts (e % g.n0), g.x1_shifts (e / g.n0))

end RectGrid

/-! ## Derived geometry

The generic derivations (`defaultimpl`) are not part of this source
set; the definitions below model them from the specification and from
the interface docstrings in src/pymor/grids/interfaces.py. -/

/-- Modelled from the spec: the default recursive
`subentity_embedding` rule picks, for each codim-2 subentity (vertex)
of the square, its codim-1 superentity (edge) with smallest local
index, together with the vertex's slot inside that edge's
`subentities(1, 2)` row. -/
def vertexParent (v : Fin 4) : Fin 4 × Fin 2 :=
  (((List.finRange 4).filterMap fun e =>
      if squareSub12 e 0 = v then some (e, (0 : Fin 2))
      else if squareSub12 e 1 = v then some (e, (1 : Fin 2))
      else none)).headD (0, 0)

/-- Modelled from the spec: the canonical position of local vertex `v`
of the square reference element, obtained by composing the smallest-
index parent edge's embedding (`Square.subentity_embedding(1)`) with
the line element's vertex embedding (`Line.subentity_embedding(1)`),
per the default rule documented for `subentity_embedding` in
interfaces.py (the `defaultimpl` module carrying its code is not part
of this source set). -/
def squareCanonicalVertex (v : Fin 4) : ℚ × ℚ :=
  let p := vertexParent v
  vadd2 (vsmul2 (lineSubentityEmbedding1B p.2) (squareSubentityEmbedding1A p.1))
        (squareSubentityEmbedding1B p.1)

/-- Modelled from the spec: the physical position of grid vertex `k` of
a `RectGrid`, per the structured numbering shown in the rect.py
docstring (row-major from the lower-left corner, `n0 + 1` vertices per
row); the generic `embeddings(2)` derivation is not part of this source
set. -/
def RectGrid.vertexPos (g : RectGrid) (k : ℕ) : ℚ × ℚ :=
  (g.a0 + ((k % (g.n0 + 1) : ℕ) : ℚ) * g.x0_diameter,
   g.a1 + ((k / (g.n0 + 1) : ℕ) : ℚ) * g.x1_diameter)

/-- Modelled from the spec: `jacobian_inverse_transposed(0)`, the
transposed (Moore-Penrose pseudo-)inverse of each cell's linear part;
for an invertible 2x2 linear part this is the transpose of the
inverse. -/
def jacobianInverseTransposed0 (g : RectGrid) (e : ℕ) : Mat2 :=
  (g.embA e).inv2.transpose

/-- Modelled from the spec: `integration_elements(0)`, defined as
`sqrt(det(A^T A))` per cell.  For a square 2x2 linear part,
`det(A^T A) = (det A)^2`, whose nonnegative square root is exactly
`|det A|` (see `Mat2.det_transpose_mul_self`), so the value stays in
`ℚ`. -/
def integrationElements0 (g : RectGrid) (e : ℕ) : ℚ :=
  |Mat2.det (g.embA e)|

/-- Modelled from the spec: `volumes(0)[e] = integration_elements(0)[e]
* reference_element(0).volume`. -/
def volumes0 (g : RectGrid) (e : ℕ) : ℚ :=
  integrationElements0 g e * squareVolume

/-- The grid `RectGrid(num_intervals=(2, 2), domain=[[0, 0], [1, 1]])`
used by the concrete scenarios. -/
def g22 : RectGrid := ⟨2, 2, 0, 0, 1, 1⟩

/-! ## Mapped diameters (referenceelements.py `mapped_diameter`)

`np.linalg.norm` is the Euclidean norm, so these definitions live in
`EuclideanSpace ℝ (Fin 2)`; the grids at hand embed into a
2-dimensional outer space, so a linear part of a codim-`c` entity is a
`2 x (2 - c)` matrix. -/

/-- The 2-dimensional Euclidean outer space. -/
abbrev E2 := EuclideanSpace ℝ (Fin 2)

/-- View a plain coordinate pair as a point of the Euclidean plane. -/
noncomputable def toE2 (v : Fin 2 → ℝ) : E2 := (WithLp.equiv 2 (Fin 2 → ℝ)).symm v

/-- `Square.mapped_diameter` (lines 147-152): `V0 = A . (1, 1)`,
`V1 = A . (1, -1)`, result `max(norm(V0), norm(V1))`. -/
noncomputable def squareMappedDiameter (A : Matrix (Fin 2) (Fin 2) ℝ) : ℝ :=
  max ‖toE2 (A.mulVec ![1, 1])‖ ‖toE2 (A.mulVec ![1, -1])‖

/-- `Line.mapped_diameter` (lines 84-85):
`np.apply_along_axis(np.linalg.norm, -2, A)`, the Euclidean norm of the
single column of the `2 x 1` linear part. -/
noncomputable def lineMappedDiameter (A : Matrix (Fin 2) (Fin 1) ℝ) : ℝ :=
  ‖toE2 fun i => A i 0‖

/-- `Point.mapped_diameter` (lines 36-37): `np.ones(A.shape[:-2])` —
the constant 1 for every map of the batch. -/
def pointMappedDiameter (_A : Matrix (Fin 2) (Fin 0) ℝ) : ℝ := 1

/-- The canonical square shape: the unit square `[0, 1]^2`. -/
def unitSquare : Set (Fin 2 → ℝ) := {x | ∀ i, 0 ≤ x i ∧ x i ≤ 1}

/-- The canonical line shape: the unit interval `[0, 1]`. -/
def unitSeg : Set (Fin 1 → ℝ) := {x | 0 ≤ x 0 ∧ x 0 ≤ 1}

/-- The canonical point shape: the unique point of `ℝ^0`. -/
def pointShape : Set (Fin 0 → ℝ) := Set.univ

/-- The image of the canonical square under the linear map `A`. -/
def squareImage (A : Matrix (Fin 2) (Fin 2) ℝ) : Set E2 :=
  (fun x => toE2 (A.mulVec x)) '' unitSquare

/-- The image of the canonical line segment under `A`. -/
def lineImage (A : Matrix (Fin 2) (Fin 1) ℝ) : Set E2 :=
  (fun x => toE2 (A.mulVec x)) '' unitSeg

/-- The image of the canonical point under `A`. -/
def pointImage (A : Matrix (Fin 2) (Fin 0) ℝ) : Set E2 :=
  (fun x => toE2 (A.mulVec x)) '' pointShape

/-- `d` is the diameter of the set `S`: it bounds the distance between
any two points of `S` and is attained by some pair. -/
def IsImageDiameter (S : Set E2) (d : ℝ) : Prop :=
  (∀ p ∈ S, ∀ q ∈ S, ‖p - q‖ ≤ d) ∧ ∃ p ∈ S, ∃ q ∈ S, ‖p - q‖ = d

/-! ## Helper lemmas -/

/-- The adjugate formula `Mat2.inv2` produces a right inverse whenever
the determinant is nonzero, justifying its use as the inverse of a
cell's linear part. -/
theorem Mat2.mul_inv2 (M : Mat2) (h : M.det ≠ 0) : M.mul M.inv2 = Mat2.one := by
  cases M with
  | mk a b c d =>
    simp only [Mat2.mul, Mat2.inv2, Mat2.one, Mat2.det] at *
    rw [Mat2.mk.injEq]
    refine ⟨?_, ?_, ?_, ?_⟩ <;> field_simp <;> ring

/-- For any 2x2 matrix, `det(A^T A) = (det A)^2`: the justification
that `integrationElements0` is the exact value of `sqrt(det(A^T A))`. -/
theorem Mat2.det_transpose_mul_self (M : Mat2) :
    (Mat2.mul M.transpose M).det = M.det ^ 2 := by
  cases M with
  | mk a b c d => simp only [Mat2.mul, Mat2.transpose, Mat2.det]; ring

/-- Evaluation of the spec-modelled canonical vertex positions of the
square: `(0,0), (1,0), (1,1), (0,1)` in local order. -/
theorem squareCanonicalVertex_eval :
    squareCanonicalVertex = ![(0, 0), (1, 0), (1, 1), (0, 1)] := by
  have h0 : vertexParent 0 = (0, 0) := by decide
  have h1 : vertexParent 1 = (0, 1) := by decide
  have h2 : vertexParent 2 = (1, 1) := by decide
  have h3 : vertexParent 3 = (2, 1) := by decide
  funext v
  fin_cases v <;>
    simp [squareCanonicalVertex, h0, h1, h2, h3, squareSubentityEmbedding1A,
      squareSubentityEmbedding1B, lineSubentityEmbedding1B, vadd2, vsmul2]

/-- Viewing plain vectors in the Euclidean plane commutes with
subtraction. -/
theorem toE2_sub (u v : Fin 2 → ℝ) : toE2 u - toE2 v = toE2 (u - v) := rfl

/-- Viewing plain vectors in the Euclidean plane commutes with the sum
of two scalar multiples. -/
theorem toE2_smul_add (s t : ℝ) (u v : Fin 2 → ℝ) :
    toE2 (s • u + t • v) = s • toE2 u + t • toE2 v := rfl

/-- The sum of absolute values is bounded by the larger of the absolute
values of sum and difference (equality holds, but only this direction
is needed). -/
theorem abs_add_abs_le_max_abs (s t : ℝ) : |s| + |t| ≤ max |s + t| |s - t| := by
  have h1 : s + t ≤ max |s + t| |s - t| := le_trans (le_abs_self _) (le_max_left _ _)
  have h2 : -(s + t) ≤ max |s + t| |s - t| := le_trans (neg_le_abs _) (le_max_left _ _)
  have h3 : s - t ≤ max |s + t| |s - t| := le_trans (le_abs_self _) (le_max_right _ _)
  have h4 : -(s - t) ≤ max |s + t| |s - t| := le_trans (neg_le_abs _) (le_max_right _ _)
  rcases abs_cases s with ⟨e1, _⟩ | ⟨e1, _⟩ <;> rcases abs_cases t with ⟨e2, _⟩ | ⟨e2, _⟩ <;>
    rw [e1, e2] <;> linarith

/-- Any difference vector of two points of the unit square decomposes
as `s • (1,1) + t • (1,-1)` with `|s| + |t| ≤ 1`. -/
theorem unitSquare_sub_decomp {x y : Fin 2 → ℝ}
    (hx : x ∈ unitSquare) (hy : y ∈ unitSquare) :
    ∃ s t : ℝ, x - y = s • ![(1 : ℝ), 1] + t • ![(1 : ℝ), -1] ∧ |s| + |t| ≤ 1 := by
  set u := x - y with hu
  refine ⟨(u 0 + u 1) / 2, (u 0 - u 1) / 2, ?_, ?_⟩
  · funext i
    fin_cases i <;>
      simp [hu, Matrix.cons_val_zero, Matrix.cons_val_one, Matrix.head_cons] <;> ring
  · have hb : ∀ i, |u i| ≤ 1 := by
      intro i
      have h1 := (hx i).1
      have h2 := (hx i).2
      have h3 := (hy i).1
      have h4 := (hy i).2
      rw [abs_le]
      constructor <;> simp [hu] <;> linarith
    have := abs_add_abs_le_max_abs ((u 0 + u 1) / 2) ((u 0 - u 1) / 2)
    have he0 : (u 0 + u 1) / 2 + (u 0 - u 1) / 2 = u 0 := by ring
    have he1 : (u 0 + u 1) / 2 - (u 0 - u 1) / 2 = u 1 := by ring
    rw [he0, he1] at this
    exact this.trans (max_le (hb 0) (hb 1))

/-- Distance bound for the square: the distance between the images of
any two points of the unit square is at most
`max(norm(A.(1,1)), norm(A.(1,-1)))`. -/
theorem square_dist_le (A : Matrix (Fin 2) (Fin 2) ℝ) {x y : Fin 2 → ℝ}
    (hx : x ∈ unitSquare) (hy : y ∈ unitSquare) :
    ‖toE2 (A.mulVec x) - toE2 (A.mulVec y)‖ ≤ squareMappedDiameter A := by
  obtain ⟨s, t, hdecomp, hst⟩ := unitSquare_sub_decomp hx hy
  have hM0 : ‖toE2 (A.mulVec ![1, 1])‖ ≤ squareMappedDiameter A := le_max_left _ _
  have hM1 : ‖toE2 (A.mulVec ![1, -1])‖ ≤ squareMappedDiameter A := le_max_right _ _
  have hMnn : 0 ≤ squareMappedDiameter A := le_trans (norm_nonneg _) hM0
  rw [toE2_sub, ← Matrix.mulVec_sub, hdecomp, Matrix.mulVec_add,
    Matrix.mulVec_smul, Matrix.mulVec_smul, toE2_smul_add]
  calc ‖s • toE2 (A.mulVec ![1, 1]) + t • toE2 (A.mulVec ![1, -1])‖
      ≤ ‖s • toE2 (A.mulVec ![1, 1])‖ + ‖t • toE2 (A.mulVec ![1, -1])‖ :=
        norm_add_le _ _
    _ = |s| * ‖toE2 (A.mulVec ![1, 1])‖ + |t| * ‖toE2 (A.mulVec ![1, -1])‖ := by
        rw [norm_smul, norm_smul, Real.norm_eq_abs, Real.norm_eq_abs]
    _ ≤ |s| * squareMappedDiameter A + |t| * squareMappedDiameter A := by
        apply add_le_add
        · exact mul_le_mul_of_nonneg_left hM0 (abs_nonneg s)
        · exact mul_le_mul_of_nonneg_left hM1 (abs_nonneg t)
    _ = (|s| + |t|) * squareMappedDiameter A := by ring
    _ ≤ 1 * squareMappedDiameter A := mul_le_mul_of_nonneg_right hst hMnn
    _ = squareMappedDiameter A := one_mul _

/-- The vertices of the unit square used to attain the diameter. -/
theorem unitSquare_corner_mem :
    ![(1 : ℝ), 1] ∈ unitSquare ∧ ![(0 : ℝ), 0] ∈ unitSquare
    ∧ ![(1 : ℝ), 0] ∈ unitSquare ∧ ![(0 : ℝ), 1] ∈ unitSquare := by
  refine ⟨?_, ?_, ?_, ?_⟩ <;> intro i <;> fin_cases i <;> norm_num

/-- A `2 x 1` matrix acts on a 1-vector by scaling its column. -/
theorem mulVec_fin1 (A : Matrix (Fin 2) (Fin 1) ℝ) (x : Fin 1 → ℝ) :
    A.mulVec x = x 0 • fun i => A i 0 := by
  funext i
  simp [Matrix.mulVec, Matrix.dotProduct, Fin.sum_univ_one, mul_comm]

/-- A `2 x 0` matrix sends its unique argument to the origin. -/
theorem mulVec_fin0 (A : Matrix (Fin 2) (Fin 0) ℝ) (x : Fin 0 → ℝ) :
    A.mulVec x = 0 := by
  funext i
  simp [Matrix.mulVec, Matrix.dotProduct]

/-! ## Claim theorems -/

/-- C1: for `RectGrid(num_intervals=(2,2), domain=[[0,0],[1,1]])`,
`subentities(0, 2)` is the stored codim-0-to-vertex table, its row for
cell 0 reads `[0, 1, 4, 3]` (as a set, `{0, 1, 3, 4}`), and the `s`-th
entry is the global index of the vertex located at the image, under
cell 0's affine embedding, of the square reference element's `s`-th
canonical vertex. -/
theorem C1_subentities_0_2_cell0 :
    RectGrid.subentities g22 0 (some 2) =
      Except.ok (RectGrid.SubResult.table g22.n_elements g22.codim1Subentities)
    ∧ (∀ s : Fin 4, g22.codim1Subentities 0 s = ![0, 1, 4, 3] s)
    ∧ Finset.image (g22.codim1Subentities 0) Finset.univ = ({0, 1, 3, 4} : Finset ℕ)
    ∧ (∀ s : Fin 4,
        g22.vertexPos (g22.codim1Subentities 0 s) =
          vadd2 ((g22.embA 0).mulVec (squareCanonicalVertex s)) (g22.embB 0)) := by
  refine ⟨rfl, by decide, by decide, ?_⟩
  intro s
  fin_cases s <;>
    simp [squareCanonicalVertex_eval, g22, RectGrid.vertexPos,
      RectGrid.codim1Subentities, RectGrid.EVL, RectGrid.embA, RectGrid.embB,
      RectGrid.x0_shifts, RectGrid.x1_shifts, RectGrid.x0_diameter,
      RectGrid.x1_diameter, RectGrid.x0_width, RectGrid.x1_width,
      Mat2.diag, Mat2.mulVec, vadd2]

/-- C2: for the same grid, mapping the square reference element's
canonical outer normal of local slot 3 (the left edge) through the
inverse-transpose of cell 0's linear part yields a positive multiple of
`[-1, 0]`, which has unit length; so the renormalized physical unit
outer normal of cell 0's left edge is `[-1, 0]`. -/
theorem C2_left_edge_unit_outer_normal :
    squareUnitOuterNormals 3 = (-1, 0)
    ∧ ∃ c : ℚ, 0 < c
        ∧ (jacobianInverseTransposed0 g22 0).mulVec (squareUnitOuterNormals 3) =
            vsmul2 c (-1, 0)
        ∧ dot2 (-1, 0) (-1, 0) = 1 := by
  refine ⟨rfl, 2, by norm_num, ?_, by norm_num [dot2]⟩
  simp [jacobianInverseTransposed0, g22, RectGrid.embA, RectGrid.x0_diameter,
    RectGrid.x1_diameter, RectGrid.x0_width, RectGrid.x1_width, Mat2.diag,
    Mat2.inv2, Mat2.det, Mat2.transpose, Mat2.mulVec, squareUnitOuterNormals,
    vsmul2]

/-- C3: for every `RectGrid` over a rectangular domain of width
`b0 - a0` and height `b1 - a1`, the per-cell volume — the exact value
of `sqrt(det(A^T A))` (whose square is `det(A^T A)`) times the square
reference element's volume — sums over all `n0 * n1` cells to the total
domain measure `(b0 - a0) * (b1 - a1)`. -/
theorem C3_total_volume (g : RectGrid) (h0 : 0 < g.n0) (h1 : 0 < g.n1)
    (hW : g.a0 ≤ g.b0) (hH : g.a1 ≤ g.b1) :
    (∀ e, integrationElements0 g e ^ 2 =
        (Mat2.mul (g.embA e).transpose (g.embA e)).det
      ∧ 0 ≤ integrationElements0 g e)
    ∧ ∑ e ∈ Finset.range (g.n0 * g.n1), volumes0 g e =
        (g.b0 - g.a0) * (g.b1 - g.a1) := by
  constructor
  · intro e
    constructor
    · rw [integrationElements0, sq_abs, Mat2.det_transpose_mul_self]
    · exact abs_nonneg _
  · have hdx : (0 : ℚ) ≤ g.x0_diameter := by
      apply div_nonneg _ (by positivity)
      simpa [RectGrid.x0_width] using sub_nonneg.mpr hW
    have hdy : (0 : ℚ) ≤ g.x1_diameter := by
      apply div_nonneg _ (by positivity)
      simpa [RectGrid.x1_width] using sub_nonneg.mpr hH
    have hconst : ∀ e, volumes0 g e = g.x0_diameter * g.x1_diameter := by
      intro e
      simp [volumes0, integrationElements0, RectGrid.embA, Mat2.diag, Mat2.det,
        squareVolume, abs_of_nonneg (mul_nonneg hdx hdy)]
    rw [Finset.sum_congr rfl fun e _ => hconst e, Finset.sum_const,
      Finset.card_range, nsmul_eq_mul]
    have hn0 : (g.n0 : ℚ) ≠ 0 := Nat.cast_ne_zero.mpr h0.ne'
    have hn1 : (g.n1 : ℚ) ≠ 0 := Nat.cast_ne_zero.mpr h1.ne'
    simp only [RectGrid.x0_diameter, RectGrid.x1_diameter, RectGrid.x0_width,
      RectGrid.x1_width]
    field_simp

/-- Witness for C3 at the concrete grid `g22`: the four cell volumes of
`1/4` sum to the unit measure of `[0,1] x [0,1]`. -/
theorem C3_total_volume_witness :
    (∀ e, integrationElements0 g22 e ^ 2 =
        (Mat2.mul (g22.embA e).transpose (g22.embA e)).det
      ∧ 0 ≤ integrationElements0 g22 e)
    ∧ ∑ e ∈ Finset.range (g22.n0 * g22.n1), volumes0 g22 e =
        (g22.b0 - g22.a0) * (g22.b1 - g22.a1) :=
  C3_total_volume g22 (by decide) (by decide)
    (by show (0 : ℚ) ≤ 1; norm_num) (by show (0 : ℚ) ≤ 1; norm_num)

/-- C4: for every `RectGrid`, the codim-0 embedding of cell
`e = j*n0 + i` has the cell-independent linear part
`diag((b0-a0)/n0, (b1-a1)/n1)` and translation part
`(a0 + i*(b0-a0)/n0, a1 + j*(b1-a1)/n1)`, the cell's lower-left
corner. -/
theorem C4_embeddings (g : RectGrid) (i j : ℕ) (hi : i < g.n0) (hj : j < g.n1) :
    g.embA (j * g.n0 + i) = Mat2.diag ((g.b0 - g.a0) / g.n0) ((g.b1 - g.a1) / g.n1)
    ∧ g.embB (j * g.n0 + i) =
        (g.a0 + i * ((g.b0 - g.a0) / g.n0), g.a1 + j * ((g.b1 - g.a1) / g.n1)) := by
  have hn0 : 0 < g.n0 := Nat.pos_of_ne_zero (by omega)
  have hmod : (j * g.n0 + i) % g.n0 = i := by
    rw [mul_comm j g.n0, Nat.mul_add_mod, Nat.mod_eq_of_lt hi]
  have hdiv : (j * g.n0 + i) / g.n0 = j := by
    rw [mul_comm j g.n0, Nat.mul_add_div hn0, Nat.div_eq_of_lt hi, Nat.add_zero]
  constructor
  · rfl
  · simp only [RectGrid.embB, hmod, hdiv, RectGrid.x0_shifts, RectGrid.x1_shifts,
      RectGrid.x0_diameter, RectGrid.x1_diameter, RectGrid.x0_width, RectGrid.x1_width]
    rw [Prod.mk.injEq]
    constructor <;> ring

/-- Witness for C4 at the concrete grid `g22` with `i = 1`, `j = 1`
(cell 3). -/
theorem C4_embeddings_witness :
    g22.embA (1 * g22.n0 + 1) =
      Mat2.diag ((g22.b0 - g22.a0) / g22.n0) ((g22.b1 - g22.a1) / g22.n1)
    ∧ g22.embB (1 * g22.n0 + 1) =
        (g22.a0 + 1 * ((g22.b0 - g22.a0) / g22.n0),
         g22.a1 + 1 * ((g22.b1 - g22.a1) / g22.n1)) :=
  C4_embeddings g22 1 1 (by decide) (by decide)

/-- C5: for every `RectGrid`, `size(0) = n0*n1`,
`size(1) = (n0+1)*n1 + (n1+1)*n0`, `size(2) = (n0+1)*(n1+1)`; in
particular the 2x2 grid has `size(0) = 4` and `size(2) = 9`. -/
theorem C5_sizes (g : RectGrid) :
    g.size 0 = .ok (g.n0 * g.n1)
    ∧ g.size 1 = .ok ((g.n0 + 1) * g.n1 + (g.n1 + 1) * g.n0)
    ∧ g.size 2 = .ok ((g.n0 + 1) * (g.n1 + 1))
    ∧ g22.size 0 = .ok 4
    ∧ g22.size 2 = .ok 9 :=
  ⟨rfl, rfl, rfl, rfl, rfl⟩

/-- C7: on every `RectGrid` (a 2-dimensional grid), `subentities(3, 0)`
fails with the invalid-codimension error: codimension 3 is outside
`[0, 2]`, so the guarding assert raises (Python wraps the `CodimError`
message object in the `AssertionError` it raises). -/
theorem C7_subentities_invalid_codim (g : RectGrid) :
    g.subentities 3 (some 0) =
      .error (.assertionError (.codimError "Invalid codimension")) :=
  rfl

/-- C8: evaluating `Point.subentity_embedding` at the out-of-range
codimension 1 raises `NameError` (the assert message references the
unbound name `codim`) instead of the invalid-codimension error the
claim and the method's own message template intend; the in-range call
succeeds. -/
theorem C8_point_subentity_embedding_name_error :
    pointSubentityEmbedding 1 = .error (.nameError "codim")
    ∧ pointSubentityEmbedding 0 = .ok ([], []) :=
  ⟨rfl, rfl⟩

/-- C9: `Line.unit_outer_normals()` always raises: `[1.]` is passed
positionally into `np.array`'s `dtype` parameter, which numpy rejects
with `TypeError`, so no call ever returns an array of normals. -/
theorem C9_line_unit_outer_normals_raises :
    lineUnitOuterNormals = .error (.typeError "data type not understood")
    ∧ ∀ v, lineUnitOuterNormals ≠ .ok v :=
  ⟨rfl, fun v h => by simp [lineUnitOuterNormals, npArray, isDtypeLike] at h⟩

/-- C10: each canonical outer normal of the square reference element
has unit length, is orthogonal to the embedded direction of its edge,
and points away from the barycenter (positive inner product with the
vector from the center to the edge midpoint `B + A*0.5`). -/
theorem C10_square_normals_geometry :
    ∀ i : Fin 4,
      dot2 (squareUnitOuterNormals i) (squareUnitOuterNormals i) = 1
      ∧ dot2 (squareUnitOuterNormals i) (squareSubentityEmbedding1A i) = 0
      ∧ 0 < dot2 (squareUnitOuterNormals i)
            (vsub2 (vadd2 (squareSubentityEmbedding1B i)
                          (vsmul2 (1/2) (squareSubentityEmbedding1A i)))
                   squareCenter) := by
  intro i
  fin_cases i <;>
    refine ⟨by norm_num [dot2, squareUnitOuterNormals], ?_, ?_⟩ <;>
    norm_num [dot2, vsub2, vadd2, vsmul2, squareUnitOuterNormals,
      squareSubentityEmbedding1A, squareSubentityEmbedding1B, squareCenter]

/-- C6 counterexample: for the (unique) `2 x 0` linear part,
`Point.mapped_diameter` returns 1, while the diameter of the image of
the canonical point shape — a single point — is 0; so the returned
value is not the diameter of the image. -/
theorem C6_point_mapped_diameter_counterexample :
    pointMappedDiameter (0 : Matrix (Fin 2) (Fin 0) ℝ) = 1
    ∧ IsImageDiameter (pointImage (0 : Matrix (Fin 2) (Fin 0) ℝ)) 0
    ∧ ¬ IsImageDiameter (pointImage (0 : Matrix (Fin 2) (Fin 0) ℝ))
        (pointMappedDiameter (0 : Matrix (Fin 2) (Fin 0) ℝ)) := by
  have himg : ∀ p ∈ pointImage (0 : Matrix (Fin 2) (Fin 0) ℝ), p = toE2 0 := by
    rintro p ⟨x, -, rfl⟩
    simp only [mulVec_fin0]
  have hmem : toE2 0 ∈ pointImage (0 : Matrix (Fin 2) (Fin 0) ℝ) :=
    ⟨fun i => i.elim0, trivial, by simp only [mulVec_fin0]⟩
  refine ⟨rfl, ⟨?_, toE2 0, hmem, toE2 0, hmem, by simp⟩, ?_⟩
  · intro p hp q hq
    rw [himg p hp, himg q hq]
    simp
  · rintro ⟨-, p, hp, q, hq, hpq⟩
    rw [himg p hp, himg q hq] at hpq
    simp [pointMappedDiameter] at hpq

/-- C6 (amended): `mapped_diameter` returns, for `Square`, the value
`max(norm(A.(1,1)), norm(A.(1,-1)))`, which is exactly the diameter of
the image of the unit square under `A`; for `Line`, the norm of the
column of `A`, the diameter of the image of the unit interval; for
`Point` it returns the constant 1 for every map, not the diameter (0)
of the single image point. -/
theorem C6_mapped_diameter :
    (∀ A : Matrix (Fin 2) (Fin 2) ℝ,
      squareMappedDiameter A =
        max ‖toE2 (A.mulVec ![1, 1])‖ ‖toE2 (A.mulVec ![1, -1])‖
      ∧ IsImageDiameter (squareImage A) (squareMappedDiameter A))
    ∧ (∀ A : Matrix (Fin 2) (Fin 1) ℝ,
      lineMappedDiameter A = ‖toE2 fun i => A i 0‖
      ∧ IsImageDiameter (lineImage A) (lineMappedDiameter A))
    ∧ (∀ A : Matrix (Fin 2) (Fin 0) ℝ,
      pointMappedDiameter A = 1 ∧ IsImageDiameter (pointImage A) 0) := by
  obtain ⟨hc11, hc00, hc10, hc01⟩ := unitSquare_corner_mem
  refine ⟨fun A => ⟨rfl, ?_, ?_⟩, fun A => ⟨rfl, ?_, ?_⟩, fun A => ⟨rfl, ?_, ?_⟩⟩
  · -- square: distance bound
    rintro p ⟨x, hx, rfl⟩ q ⟨y, hy, rfl⟩
    exact square_dist_le A hx hy
  · -- square: the bound is attained at a pair of corners
    have hz : A.mulVec ![(0 : ℝ), 0] = 0 := by
      have h0 : ![(0 : ℝ), 0] = (0 : Fin 2 → ℝ) := by
        funext i; fin_cases i <;> simp
      rw [h0, Matrix.mulVec_zero]
    rcases max_choice ‖toE2 (A.mulVec ![1, 1])‖ ‖toE2 (A.mulVec ![1, -1])‖ with h | h
    · refine ⟨toE2 (A.mulVec ![1, 1]), ⟨![1, 1], hc11, rfl⟩,
        toE2 (A.mulVec ![0, 0]), ⟨![0, 0], hc00, rfl⟩, ?_⟩
      rw [squareMappedDiameter, h, hz]
      simp [toE2]
    · refine ⟨toE2 (A.mulVec ![1, 0]), ⟨![1, 0], hc10, rfl⟩,
        toE2 (A.mulVec ![0, 1]), ⟨![0, 1], hc01, rfl⟩, ?_⟩
      rw [squareMappedDiameter, h, toE2_sub, ← Matrix.mulVec_sub]
      have hd : ![(1 : ℝ), 0] - ![(0 : ℝ), 1] = ![(1 : ℝ), -1] := by
        funext i; fin_cases i <;> norm_num
      rw [hd]
  · -- line: distance bound
    rintro p ⟨x, hx, rfl⟩ q ⟨y, hy, rfl⟩
    rw [toE2_sub, ← Matrix.mulVec_sub, mulVec_fin1]
    have hs : (x - y) 0 = x 0 - y 0 := rfl
    have : ‖toE2 ((x - y) 0 • fun i => A i 0)‖ =
        |(x - y) 0| * ‖toE2 fun i => A i 0‖ := by
      have hsm : toE2 ((x - y) 0 • fun i => A i 0) =
          (x - y) 0 • toE2 fun i => A i 0 := rfl
      rw [hsm, norm_smul, Real.norm_eq_abs]
    rw [this, lineMappedDiameter]
    have hb : |(x - y) 0| ≤ 1 := by
      rw [hs, abs_le]
      exact ⟨by linarith [hx.1, hx.2, hy.1, hy.2], by linarith [hx.1, hx.2, hy.1, hy.2]⟩
    calc |(x - y) 0| * ‖toE2 fun i => A i 0‖
        ≤ 1 * ‖toE2 fun i => A i 0‖ :=
          mul_le_mul_of_nonneg_right hb (norm_nonneg _)
      _ = ‖toE2 fun i => A i 0‖ := one_mul _
  · -- line: attained at the endpoints
    refine ⟨toE2 (A.mulVec fun _ => 1), ⟨fun _ => 1, by constructor <;> norm_num, rfl⟩,
      toE2 (A.mulVec fun _ => 0), ⟨fun _ => 0, by constructor <;> norm_num, rfl⟩, ?_⟩
    have hz : A.mulVec (fun _ => (0 : ℝ)) = 0 := by
      have h0 : (fun _ => (0 : ℝ)) = (0 : Fin 1 → ℝ) := rfl
      rw [h0, Matrix.mulVec_zero]
    have h1 : A.mulVec (fun _ => (1 : ℝ)) = fun i => A i 0 := by
      rw [mulVec_fin1]
      funext i
      simp
    rw [hz, h1, lineMappedDiameter]
    simp [toE2]
  · -- point: distance bound (all image points coincide)
    rintro p ⟨x, -, rfl⟩ q ⟨y, -, rfl⟩
    simp only [mulVec_fin0]
    simp
  · -- point: attained trivially
    refine ⟨toE2 (A.mulVec fun i => i.elim0), ⟨fun i => i.elim0, trivial, rfl⟩,
      toE2 (A.mulVec fun i => i.elim0), ⟨fun i => i.elim0, trivial, rfl⟩, by simp⟩

end PyMor
